import Mathlib

/-
Verification of HR363/jarvis: a shallow embedding of the event-straddle
bot (src/NFP_FLIPPER/nfp_bot.py) and the risk/reward position manager
(src/trademanager/trade_manager.py), with proofs of the specified
properties.  Prices, volumes and account figures are embedded as exact
rationals; the MetaTrader5 terminal is modelled by the request/response
shapes the two programs depend on, with fallible calls returning
`Option` and Python attribute access on a possibly-absent value
returning `Except`.
-/

/-! ## Python-semantics helpers -/

/-- Character-by-character uppercasing of a char list (Python `str.upper`
restricted to the ASCII symbols the programs use). -/
def upList : List Char → List Char
  | [] => []
  | c :: cs => c.toUpper :: upList cs

/-- Python `s.upper()`. -/
def pyUpper (s : String) : String := String.mk (upList s.data)

/-- Substring occurrence on char lists. -/
def containsSub (s sub : List Char) : Bool :=
  match s with
  | [] => sub.isEmpty
  | _ :: rest => sub.isPrefixOf s || containsSub rest sub

/-- Python `sub in s` for strings. -/
def pyIn (sub s : String) : Bool := containsSub s.data sub.data

/-- Python 3 `round()` on an exact rational: round half to even. -/
def pyRound (q : ℚ) : ℤ :=
  if q - ⌊q⌋ < 1/2 then ⌊q⌋
  else if 1/2 < q - ⌊q⌋ then ⌊q⌋ + 1
  else if Even ⌊q⌋ then ⌊q⌋ else ⌊q⌋ + 1

/-! ## Shared terminal-boundary shapes -/

/-- Direction of a position (MT5 `ORDER_TYPE_BUY` / `ORDER_TYPE_SELL`). -/
inductive PosSide where
  | buy
  | sell
deriving DecidableEq

/-- The broker result code carried by an order-send response; `done`
(`TRADE_RETCODE_DONE`) is the only success signal. -/
inductive Retcode where
  | done
  | err (code : ℕ)
deriving DecidableEq, BEq

/-- An order-send response (`result.retcode`, `result.comment`). -/
structure OrderResult where
  retcode : Retcode
  comment : String
deriving DecidableEq

/-- A bid/ask quote (`mt5.symbol_info_tick`). -/
structure Tick where
  bid : ℚ
  ask : ℚ
deriving DecidableEq

/-- A Python exception escaping a call. -/
inductive PyExn where
  | attributeError
deriving DecidableEq

/-- Python attribute access `res.retcode` where `res` may be `None`:
on `None` it raises `AttributeError`. -/
def attrRetcode : Option OrderResult → Except PyExn Retcode
  | none => .error .attributeError
  | some r => .ok r.retcode

/-- MT5 fill policies the two programs use. -/
inductive FillPolicy where
  | fillingReturn
  | fillingIOC
deriving DecidableEq

/-- MT5 order type constants. -/
inductive OrderKind where
  | buy
  | sell
  | buyStop
  | sellStop
deriving DecidableEq

/-- MT5 trade-action constants. -/
inductive TradeAction where
  | pending
  | deal
  | sltp
  | remove
deriving DecidableEq

/-- Order time policy: good-till-cancelled, or an absolute expiration. -/
inductive TimePolicy where
  | gtc
  | specified (expiration : ℚ)
deriving DecidableEq

namespace NFP

/-! ## Event straddle bot, src/NFP_FLIPPER/nfp_bot.py -/

def SYMBOL : String := "XAUUSD.m"

def STOP_LOSS_PIPS : ℚ := 10

def TAKE_PROFIT_PIPS : ℚ := 100

def BREAKEVEN_TRIGGER_PIPS : ℚ := 15

def BREAKEVEN_PADDING : ℚ := 2

def PROFIT_TARGET_USD : ℚ := 800

/-- The layer table: `(distance in pips, lot size)` per layer (lines 24-28). -/
def ORDERS_CONFIG : List (ℚ × ℚ) := [(20, 1/20), (30, 1/20), (40, 1/10)]

def DELETE_PENDING_AFTER : ℚ := 120

/-- A pending-order request as built by `send_order` (lines 48-59). -/
structure OrderRequest where
  action : TradeAction
  symbol : String
  volume : ℚ
  order_type : OrderKind
  price : ℚ
  sl : ℚ
  tp : ℚ
  type_time : TimePolicy
  type_filling : FillPolicy
  comment : String
deriving DecidableEq

/-- `send_order` of the variant in src/ (lines 46-59): the request is
submitted good-till-cancelled. -/
def send_order (symbol : String) (order_type : OrderKind)
    (price sl tp lot_size : ℚ) (comment : String) : OrderRequest :=
  { action := TradeAction.pending
    symbol := symbol
    volume := lot_size
    order_type := order_type
    price := price
    sl := sl
    tp := tp
    type_time := TimePolicy.gtc
    type_filling := FillPolicy.fillingReturn
    comment := comment }

/-- Modelled from the spec: the base straddle variant's `send_order` is not
among the repository files under src/ (only the enhanced variant
`nfp_bot.py` is, recognisable by its GTC submission, read-back
verification and equity profit exit).  Per the spec's placement protocol,
in the base variant "Every pending order is submitted with an absolute
expiration 120 seconds (`DELETE_PENDING_AFTER`) after placement time".
`now` is the placement time. -/
def send_order_base (symbol : String) (order_type : OrderKind)
    (price sl tp lot_size : ℚ) (comment : String) (now : ℚ) : OrderRequest :=
  { action := TradeAction.pending
    symbol := symbol
    volume := lot_size
    order_type := order_type
    price := price
    sl := sl
    tp := tp
    type_time := TimePolicy.specified (now + DELETE_PENDING_AFTER)
    type_filling := FillPolicy.fillingReturn
    comment := comment }

/-- One pass of the placement loop body (lines 236-260) for layer `i`
with config `layer = (distance_pips, lot)`: the buy-stop above the ask
and the sell-stop below the bid. -/
def layer_orders (bid ask point : ℚ) (i : ℕ) (layer : ℚ × ℚ) :
    List OrderRequest :=
  let dist_points := layer.1 * 10 * point
  let sl_points := STOP_LOSS_PIPS * 10 * point
  let tp_points := TAKE_PROFIT_PIPS * 10 * point
  let buy_price := ask + dist_points
  let sell_price := bid - dist_points
  [ send_order SYMBOL OrderKind.buyStop buy_price (buy_price - sl_points)
      (buy_price + tp_points) layer.2 ("NFP_L" ++ toString (i + 1) ++ "_Buy"),
    send_order SYMBOL OrderKind.sellStop sell_price (sell_price + sl_points)
      (sell_price - tp_points) layer.2 ("NFP_L" ++ toString (i + 1) ++ "_Sell") ]

/-- The whole placement batch: one quote `(bid, ask)` is fetched once and
every layer's orders are computed from it (lines 229-260). -/
def place_straddle (bid ask point : ℚ) (cfg : List (ℚ × ℚ)) :
    List OrderRequest :=
  cfg.enum.flatMap (fun p => layer_orders bid ask point p.1 p.2)

/-- An open position as the bot reads it back from the terminal. -/
structure Position where
  ticket : ℕ
  ptype : PosSide
  volume : ℚ
  price_open : ℚ
  sl : ℚ
  tp : ℚ
deriving DecidableEq

/-- A market close request as built in `close_all_positions`
(lines 96-105): opposite direction, at the current bid for a buy and the
current ask for a sell. -/
structure CloseRequest where
  action : TradeAction
  symbol : String
  volume : ℚ
  order_type : OrderKind
  position : ℕ
  price : ℚ
  type_filling : FillPolicy
  comment : String
deriving DecidableEq

def close_request (pos : Position) (tick : Tick) : CloseRequest :=
  { action := TradeAction.deal
    symbol := SYMBOL
    volume := pos.volume
    order_type := if pos.ptype = PosSide.buy then OrderKind.sell else OrderKind.buy
    position := pos.ticket
    price := if pos.ptype = PosSide.buy then tick.bid else tick.ask
    type_filling := FillPolicy.fillingReturn
    comment := "Profit Target Exit" }

/-- `close_all_positions` (lines 83-111) submits one close request per
open position on the symbol. -/
def close_all_positions (positions : List Position) (tick : Tick) :
    List CloseRequest :=
  positions.map (fun p => close_request p tick)

/-- Result handling in `close_all_positions` and `delete_pending_orders`
(lines 106-108, 125-128): `if result and result.retcode == DONE` — an
absent result is guarded, a non-done code is skipped; both non-fatal. -/
def close_all_handle : Option OrderResult → Bool
  | none => false
  | some r => r.retcode == Retcode.done

/-- Result handling of the stop-loss modification in `check_breakeven`
(lines 177-178 and 197-198): `res = mt5.order_send(request)` followed by
`if res.retcode == DONE` with no `None` guard, so attribute access raises
if the terminal returned no result.  The `Bool` says whether the
protection message was printed. -/
def check_breakeven_handle (res : Option OrderResult) : Except PyExn Bool :=
  (attrRetcode res).map (fun rc => rc == Retcode.done)

/-- One position's step of `check_breakeven` (lines 160-199): when the
favorable distance exceeds the trigger and the stop is worse than target,
a modification is submitted and its result `res` is handled. -/
def breakeven_step (point : ℚ) (pos : Position) (tick : Tick)
    (res : Option OrderResult) : Except PyExn Bool :=
  let trigger_points := BREAKEVEN_TRIGGER_PIPS * 10 * point
  let padding_points := BREAKEVEN_PADDING * 10 * point
  match pos.ptype with
  | PosSide.buy =>
    if trigger_points < tick.bid - pos.price_open ∧
        pos.sl < pos.price_open + padding_points then
      check_breakeven_handle res
    else Except.ok false
  | PosSide.sell =>
    if trigger_points < pos.price_open - tick.ask ∧
        (pos.sl = 0 ∨ pos.price_open - padding_points < pos.sl) then
      check_breakeven_handle res
    else Except.ok false

/-- The `check_breakeven` sweep over the open positions; a raised
exception aborts the sweep (and, in `main`, the monitoring loop, whose
`try` catches only `KeyboardInterrupt`). -/
def check_breakeven (point : ℚ) :
    List (Position × Tick × Option OrderResult) → Except PyExn Unit
  | [] => Except.ok ()
  | (pos, tick, res) :: rest => do
    let _ ← breakeven_step point pos tick res
    check_breakeven point rest

/-- `check_profit_exit` (lines 132-148): trigger condition on the equity
read from the terminal (absent account info never triggers). -/
def check_profit_exit (starting_equity : ℚ) (equity : Option ℚ) : Bool :=
  match equity with
  | none => false
  | some e => decide (PROFIT_TARGET_USD ≤ e - starting_equity)

/-- The observable actions of one iteration of the monitoring loop
(lines 270-281). -/
inductive Act where
  | checkProfit
  | closeAll
  | deletePending
  | breakeven
deriving DecidableEq

/-- What one tick of the loop does: the profit check always runs first;
on a trigger the bot closes all, deletes pending orders and stops;
otherwise the breakeven check runs. -/
def tick_acts (trig : Bool) : List Act :=
  if trig then [Act.checkProfit, Act.closeAll, Act.deletePending]
  else [Act.checkProfit, Act.breakeven]

/-- The monitoring loop over a finite trace of equity observations:
`break` after the first profit-exit trigger. -/
def monitor_loop (starting_equity : ℚ) : List (Option ℚ) → List Act
  | [] => []
  | e :: rest =>
    if check_profit_exit starting_equity e then tick_acts true
    else tick_acts false ++ monitor_loop starting_equity rest

end NFP

namespace TM

/-! ## Position risk manager, src/trademanager/trade_manager.py -/

/-- `TradeConfig` (lines 42-87). -/
structure TradeConfig where
  symbols : List String
  breakeven_enabled : Bool
  breakeven_rr : ℚ
  breakeven_padding_pips : ℚ
  partial_close_enabled : Bool
  partial_close_targets : List (ℚ × ℚ)
  risk_percent : ℚ
  max_daily_loss_percent : ℚ
  max_positions : ℕ
  daily_profit_target : ℚ
  magic_number : ℕ

/-- The default milestone table set in `__post_init__` (lines 83-87),
as `(rr, close_percent)` pairs. -/
def default_targets : List (ℚ × ℚ) := [(3, 30), (6, 30), (10, 30)]

/-- The dataclass defaults of `TradeConfig`. -/
def defaultConfig : TradeConfig :=
  { symbols := []
    breakeven_enabled := true
    breakeven_rr := 1
    breakeven_padding_pips := 1
    partial_close_enabled := true
    partial_close_targets := default_targets
    risk_percent := 1
    max_daily_loss_percent := 5
    max_positions := 10
    daily_profit_target := 0
    magic_number := 0 }

/-- An open position as the manager reads it from the terminal. -/
structure Position where
  ticket : ℕ
  symbol : String
  ptype : PosSide
  volume : ℚ
  price_open : ℚ
  sl : ℚ
  tp : ℚ
  profit : ℚ
  magic : ℕ

/-- The manager's ticket-keyed tracking state (lines 95-100). -/
structure ManagerState where
  position_risk : ℕ → Option ℚ
  breakeven_done : ℕ → Bool
  partial_closes_done : ℕ → Option (List ℚ)

/-- The state at startup: empty caches. -/
def initState : ManagerState :=
  { position_risk := fun _ => none
    breakeven_done := fun _ => false
    partial_closes_done := fun _ => none }

/-- `get_pip_value` (lines 155-169); `info_available` models whether
`mt5.symbol_info` returned a value. -/
def get_pip_value (info_available : Bool) (symbol : String) : ℚ :=
  if info_available = false then 1/10000
  else if pyIn "XAU" (pyUpper symbol) || pyIn "GOLD" (pyUpper symbol) then 1/100
  else if pyIn "JPY" (pyUpper symbol) then 1/100
  else 1/10000

/-- `pips_to_price` (lines 171-173). -/
def pips_to_price (info_available : Bool) (symbol : String) (pips : ℚ) : ℚ :=
  pips * get_pip_value info_available symbol

/-- `get_positions` (lines 182-198): keep positions passing the symbol
filter (empty list = all) and the magic filter (0 = all). -/
def get_positions (cfg : TradeConfig) (ps : List Position) : List Position :=
  ps.filter (fun p =>
    (cfg.symbols.isEmpty || cfg.symbols.contains p.symbol) &&
    (cfg.magic_number == 0 || p.magic == cfg.magic_number))

/-- `get_current_price` (lines 200-206): bid for a buy, ask for a sell,
absent when there is no tick. -/
def get_current_price (tick : Option Tick) (side : PosSide) : Option ℚ :=
  match tick with
  | none => none
  | some t => some (match side with
    | PosSide.buy => t.bid
    | PosSide.sell => t.ask)

/-- `get_initial_risk` (lines 208-230): the cached value when present;
otherwise, with no stop set, a logged warning and risk 0 — with no cache
entry written; otherwise the direction-signed stop distance, stored under
the ticket. -/
def get_initial_risk (st : ManagerState) (pos : Position) :
    ManagerState × ℚ :=
  match st.position_risk pos.ticket with
  | some r => (st, r)
  | none =>
    if pos.sl = 0 then (st, 0)
    else
      let risk := match pos.ptype with
        | PosSide.buy => pos.price_open - pos.sl
        | PosSide.sell => pos.sl - pos.price_open
      ({ st with position_risk :=
          fun t => if t = pos.ticket then some |risk| else st.position_risk t },
       |risk|)

/-- `calculate_current_rr` (lines 232-249): 0 with no tick or zero
initial risk, else favorable distance over initial risk. -/
def calculate_current_rr (st : ManagerState) (pos : Position)
    (tick : Option Tick) : ManagerState × ℚ :=
  match get_current_price tick pos.ptype with
  | none => (st, 0)
  | some current_price =>
    let p := get_initial_risk st pos
    if p.2 = 0 then (p.1, 0)
    else
      let profit_price := match pos.ptype with
        | PosSide.buy => current_price - pos.price_open
        | PosSide.sell => pos.price_open - current_price
      (p.1, profit_price / p.2)

/-- `modify_sl`'s result handling (lines 274-281): success iff a result
came back with code done. -/
def modify_sl_ok (res : Option OrderResult) : Bool :=
  match res with
  | none => false
  | some r => r.retcode == Retcode.done

/-- `partial_close`'s volume computation (lines 290-297): the percent of
the current volume, rounded to the volume step, raised to the minimum
volume, capped at the position's volume. -/
def partial_close_volume (pos_volume percent volume_step volume_min : ℚ) : ℚ :=
  let close_volume := pos_volume * (percent / 100)
  let rounded := (pyRound (close_volume / volume_step) : ℚ) * volume_step
  let floored := max rounded volume_min
  if pos_volume ≤ floored then pos_volume else floored

/-- The outcome of `manage_breakeven` on one position: the updated state,
the new stop submitted to the terminal (when a modification was
submitted) and the function's returned flag. -/
structure BEResult where
  st : ManagerState
  submitted : Option ℚ
  fired : Bool

/-- `manage_breakeven` (lines 352-392); `modify_res` is the terminal's
response to the stop modification, were one submitted. -/
def manage_breakeven (cfg : TradeConfig) (info_available : Bool)
    (st : ManagerState) (pos : Position) (tick : Option Tick)
    (modify_res : Option OrderResult) : BEResult :=
  if cfg.breakeven_enabled = false then ⟨st, none, false⟩
  else if st.breakeven_done pos.ticket then ⟨st, none, false⟩
  else
    let p := calculate_current_rr st pos tick
    if cfg.breakeven_rr ≤ p.2 then
      let padding := pips_to_price info_available pos.symbol
        cfg.breakeven_padding_pips
      match pos.ptype with
      | PosSide.buy =>
        if pos.price_open + padding ≤ pos.sl then ⟨p.1, none, false⟩
        else if modify_sl_ok modify_res then
          ⟨{ p.1 with breakeven_done :=
              fun t => if t = pos.ticket then true else p.1.breakeven_done t },
           some (pos.price_open + padding), true⟩
        else ⟨p.1, some (pos.price_open + padding), false⟩
      | PosSide.sell =>
        if pos.sl ≠ 0 ∧ pos.sl ≤ pos.price_open - padding then
          ⟨p.1, none, false⟩
        else if modify_sl_ok modify_res then
          ⟨{ p.1 with breakeven_done :=
              fun t => if t = pos.ticket then true else p.1.breakeven_done t },
           some (pos.price_open - padding), true⟩
        else ⟨p.1, some (pos.price_open - padding), false⟩
    else ⟨p.1, none, false⟩

/-- The outcome of the milestone loop of `manage_partial_close`: the
ticket's updated milestone record, the close submissions made this pass
(in order), and whether a close succeeded. -/
structure PCResult where
  done : List ℚ
  submitted : List (ℚ × ℚ)
  fired : Bool

/-- The `for target in partial_close_targets` loop (lines 405-433):
recorded milestones are skipped; at a reached milestone a close is
submitted (`close_ok` is the broker's verdict per milestone); on success
the milestone is recorded and the pass returns; on failure the loop
continues with the later milestones. -/
def pc_loop (current_rr : ℚ) (done : List ℚ) (close_ok : ℚ → Bool) :
    List (ℚ × ℚ) → PCResult
  | [] => ⟨done, [], false⟩
  | target :: rest =>
    if target.1 ∈ done then pc_loop current_rr done close_ok rest
    else if target.1 ≤ current_rr then
      if close_ok target.1 then ⟨done ++ [target.1], [target], true⟩
      else
        let r := pc_loop current_rr done close_ok rest
        ⟨r.done, target :: r.submitted, r.fired⟩
    else pc_loop current_rr done close_ok rest

/-- The outcome of `manage_partial_close` on one position. -/
structure PCPass where
  st : ManagerState
  submitted : List (ℚ × ℚ)
  fired : Bool

/-- `manage_partial_close` (lines 394-435): ensure the ticket has a
ledger entry, then run the milestone loop and store the updated record. -/
def manage_partial_close (cfg : TradeConfig) (st : ManagerState)
    (pos : Position) (tick : Option Tick) (close_ok : ℚ → Bool) : PCPass :=
  if cfg.partial_close_enabled = false then ⟨st, [], false⟩
  else
    let p := calculate_current_rr st pos tick
    let done0 := (p.1.partial_closes_done pos.ticket).getD []
    let r := pc_loop p.2 done0 close_ok cfg.partial_close_targets
    ⟨{ p.1 with partial_closes_done :=
        fun t => if t = pos.ticket then some r.done
                 else p.1.partial_closes_done t },
     r.submitted, r.fired⟩

/-- The result of `manage_position` (lines 568-579) on one position. -/
structure PassResult where
  st : ManagerState
  be_submitted : Option ℚ
  pc_submitted : List (ℚ × ℚ)

/-- `manage_position` (lines 568-579): capture initial risk, then the
breakeven rule, then the partial-close rule. -/
def manage_position (cfg : TradeConfig) (info_available : Bool)
    (st : ManagerState) (pos : Position) (tick : Option Tick)
    (modify_res : Option OrderResult) (close_ok : ℚ → Bool) : PassResult :=
  let st0 := (get_initial_risk st pos).1
  let b := manage_breakeven cfg info_available st0 pos tick modify_res
  let c := manage_partial_close cfg b.st pos tick close_ok
  ⟨c.st, b.submitted, c.submitted⟩

/-- A run of breakeven passes over successive observations
`(position, tick, modification result)`, counting the passes on which
the breakeven modification succeeded. -/
def run_breakeven (cfg : TradeConfig) (info_available : Bool) :
    ManagerState → List (Position × Option Tick × Option OrderResult) →
      ManagerState × ℕ
  | st, [] => (st, 0)
  | st, (pos, tick, res) :: rest =>
    let b := manage_breakeven cfg info_available st pos tick res
    let r := run_breakeven cfg info_available b.st rest
    (r.1, (if b.fired then 1 else 0) + r.2)

/-- `check_daily_limits`' outcome (lines 437-457): whether the run keeps
going, and whether `close_all_positions` was invoked. -/
structure DailyOutcome where
  keep_running : Bool
  closed_all : Bool
deriving DecidableEq

/-- `check_daily_limits` (lines 437-457); absent account info keeps the
run going. -/
def check_daily_limits (cfg : TradeConfig) (daily_start_balance : ℚ)
    (account_balance : Option ℚ) : DailyOutcome :=
  match account_balance with
  | none => ⟨true, false⟩
  | some balance =>
    if (balance - daily_start_balance) / daily_start_balance * 100 ≤
        -cfg.max_daily_loss_percent then ⟨false, false⟩
    else if 0 < cfg.daily_profit_target ∧
        cfg.daily_profit_target ≤ balance - daily_start_balance then
      ⟨false, true⟩
    else ⟨true, false⟩

/-- The daily-limit gate of the main loop (lines 617-621): the pass
outcomes from successive balance readings until the first stopping one. -/
def run_passes (cfg : TradeConfig) (daily_start_balance : ℚ) :
    List (Option ℚ) → List DailyOutcome
  | [] => []
  | bal :: rest =>
    let o := check_daily_limits cfg daily_start_balance bal
    if o.keep_running then o :: run_passes cfg daily_start_balance rest
    else [o]

/-- A full close request as built by `close_position` (lines 325-350). -/
structure CloseRequest where
  action : TradeAction
  symbol : String
  volume : ℚ
  order_type : OrderKind
  price : ℚ
  position : ℕ
  type_filling : FillPolicy
  comment : String
deriving DecidableEq

def close_request (pos : Position) (tick : Tick) : CloseRequest :=
  { action := TradeAction.deal
    symbol := pos.symbol
    volume := pos.volume
    order_type := if pos.ptype = PosSide.buy then OrderKind.sell
                  else OrderKind.buy
    price := if pos.ptype = PosSide.buy then tick.bid else tick.ask
    position := pos.ticket
    type_filling := FillPolicy.fillingIOC
    comment := "Trade Manager Close" }

/-- `close_all_positions` (lines 459-463): close each managed position;
`ticks` gives the current quote per symbol. -/
def close_all_positions (cfg : TradeConfig) (ps : List Position)
    (ticks : String → Tick) : List CloseRequest :=
  (get_positions cfg ps).map (fun p => close_request p (ticks p.symbol))

end TM

/-! ## Theorems -/

/-- `pyRound` lands within half a unit of its argument. -/
theorem pyRound_near (q : ℚ) : |q - (pyRound q : ℚ)| ≤ 1/2 := by
  have h0 : ((⌊q⌋ : ℤ) : ℚ) ≤ q := Int.floor_le q
  have h1 : q < (⌊q⌋ : ℤ) + 1 := Int.lt_floor_add_one q
  unfold pyRound
  split_ifs with hlt hgt hev <;>
    · rw [abs_le]
      push_cast
      constructor <;> linarith

/-- C1.  Straddle placement geometry: for a layer at distance `d` pips off
one reference quote `(bid, ask)` with point size `point`, the buy-stop has
entry `ask + d*10*point`, stop `entry - STOP_LOSS_PIPS*10*point`, target
`entry + TAKE_PROFIT_PIPS*10*point`; the sell-stop mirrors it below the
bid; for a positive distance and point every buy order has
`sl < entry < tp` and every sell order has `tp < entry < sl`; and the
three configured layers yield exactly six pending requests off the same
single quote. -/
theorem C1_straddle_geometry (bid ask point : ℚ) (hpt : 0 < point) :
    (∀ (i : ℕ) (d lot : ℚ), 0 < d →
      ∃ b s, NFP.layer_orders bid ask point i (d, lot) = [b, s] ∧
        b.action = TradeAction.pending ∧
        b.order_type = OrderKind.buyStop ∧
        b.price = ask + d * 10 * point ∧
        b.sl = b.price - NFP.STOP_LOSS_PIPS * 10 * point ∧
        b.tp = b.price + NFP.TAKE_PROFIT_PIPS * 10 * point ∧
        b.sl < b.price ∧ b.price < b.tp ∧
        s.action = TradeAction.pending ∧
        s.order_type = OrderKind.sellStop ∧
        s.price = bid - d * 10 * point ∧
        s.sl = s.price + NFP.STOP_LOSS_PIPS * 10 * point ∧
        s.tp = s.price - NFP.TAKE_PROFIT_PIPS * 10 * point ∧
        s.tp < s.price ∧ s.price < s.sl) ∧
    (NFP.place_straddle bid ask point NFP.ORDERS_CONFIG).length = 6 := by
  constructor
  · intro i d lot hd
    refine ⟨_, _, rfl, ?_⟩
    simp only [NFP.layer_orders, NFP.send_order, NFP.STOP_LOSS_PIPS,
      NFP.TAKE_PROFIT_PIPS]
    norm_num
    all_goals nlinarith
  · simp [NFP.place_straddle, NFP.ORDERS_CONFIG, NFP.layer_orders,
      List.enum]

/-- C1 witness: the geometry at a concrete quote and point size. -/
theorem C1_straddle_geometry_witness :
    (0 : ℚ) < 1/100 ∧
    (NFP.place_straddle (19998/10) 2000 (1/100) NFP.ORDERS_CONFIG).length = 6 :=
  ⟨by norm_num, (C1_straddle_geometry (19998/10) 2000 (1/100) (by norm_num)).2⟩

/-- C2.  In the base straddle variant every pending-order request carries
a time policy of an absolute expiration `DELETE_PENDING_AFTER = 120`
seconds after placement time, never good-till-cancelled. -/
theorem C2_base_variant_expiration :
    ∀ (symbol : String) (ot : OrderKind) (price sl tp lot : ℚ)
      (comment : String) (now : ℚ),
      (NFP.send_order_base symbol ot price sl tp lot comment now).type_time =
        TimePolicy.specified (now + 120) ∧
      (NFP.send_order_base symbol ot price sl tp lot comment now).type_time ≠
        TimePolicy.gtc ∧
      (NFP.send_order_base symbol ot price sl tp lot comment now).action =
        TradeAction.pending ∧
      NFP.DELETE_PENDING_AFTER = 120 := by
  intro symbol ot price sl tp lot comment now
  refine ⟨rfl, ?_, rfl, rfl⟩
  simp [NFP.send_order_base]

/-- C3.  Order submissions or stop-loss modifications inside the straddle
bot's monitoring loop and an absent or non-done result: the close-all and
delete-pending submissions guard an absent result, and a present non-done
modification result is non-fatal, but a stop-loss modification in
`check_breakeven` whose `order_send` returns no result hits an unguarded
`res.retcode` and the `AttributeError` escapes the sweep (and hence the
loop, which catches only `KeyboardInterrupt`). -/
theorem C3_absent_modify_result_raises :
    NFP.check_breakeven (1/100)
        [({ ticket := 1, ptype := PosSide.buy, volume := 1/100,
            price_open := 2000, sl := 0, tp := 0 },
          { bid := 2003, ask := 20035/10 }, none)] =
      Except.error PyExn.attributeError ∧
    NFP.check_breakeven_handle none = Except.error PyExn.attributeError ∧
    (∀ r, NFP.check_breakeven_handle (some r) =
      Except.ok (r.retcode == Retcode.done)) ∧
    NFP.close_all_handle none = false ∧
    (∀ r, NFP.close_all_handle (some r) = (r.retcode == Retcode.done)) := by
  refine ⟨?_, rfl, fun r => rfl, rfl, fun r => rfl⟩
  norm_num [NFP.check_breakeven, NFP.breakeven_step,
    NFP.check_breakeven_handle, attrRetcode, NFP.BREAKEVEN_TRIGGER_PIPS,
    NFP.BREAKEVEN_PADDING, Except.map]
  rfl

/-- Count of the close-all action over a monitor-loop trace never
exceeds one. -/
theorem NFP.monitor_loop_count_le (s : ℚ) (eqs : List (Option ℚ)) :
    (NFP.monitor_loop s eqs).count NFP.Act.closeAll ≤ 1 := by
  induction eqs with
  | nil => simp [NFP.monitor_loop]
  | cons e rest ih =>
    by_cases h : NFP.check_profit_exit s e
    · simp [NFP.monitor_loop, h, NFP.tick_acts, List.count_cons]
    · simpa [NFP.monitor_loop, h, NFP.tick_acts, List.count_append,
        List.count_cons] using ih

/-- When some observed equity triggers, the exit runs exactly once. -/
theorem NFP.monitor_loop_count_eq (s : ℚ) (eqs : List (Option ℚ))
    (h : ∃ e ∈ eqs, NFP.check_profit_exit s e = true) :
    (NFP.monitor_loop s eqs).count NFP.Act.closeAll = 1 := by
  induction eqs with
  | nil => simp at h
  | cons e rest ih =>
    by_cases he : NFP.check_profit_exit s e
    · simp [NFP.monitor_loop, he, NFP.tick_acts, List.count_cons]
    · rcases h with ⟨x, hx, hxt⟩
      rcases List.mem_cons.mp hx with rfl | hx2
      · exact absurd hxt he
      · simpa [NFP.monitor_loop, he, NFP.tick_acts, List.count_append,
          List.count_cons] using ih ⟨x, hx2, hxt⟩

/-- C8.  Enhanced-variant profit exit: the profit check precedes the
breakeven check on every tick; the trigger is inclusive at
`PROFIT_TARGET_USD = 800` over the baseline; a triggered tick closes
every open position with an opposite-direction market order at current
bid/ask, deletes pending orders and ends the loop; and the
close-all-and-delete action runs exactly once when any observed equity
reaches the target, never more than once overall. -/
theorem C8_profit_exit (s : ℚ) :
    (∀ b : Bool, (NFP.tick_acts b).head? = some NFP.Act.checkProfit) ∧
    (∀ b : Bool, NFP.Act.breakeven ∈ NFP.tick_acts b →
      NFP.tick_acts b = [NFP.Act.checkProfit, NFP.Act.breakeven]) ∧
    (∀ e : ℚ, NFP.check_profit_exit s (some e) = true ↔
      NFP.PROFIT_TARGET_USD ≤ e - s) ∧
    NFP.PROFIT_TARGET_USD = 800 ∧
    (∀ (e : Option ℚ) (rest : List (Option ℚ)),
      NFP.check_profit_exit s e = true →
      NFP.monitor_loop s (e :: rest) =
        [NFP.Act.checkProfit, NFP.Act.closeAll, NFP.Act.deletePending]) ∧
    (∀ eqs : List (Option ℚ),
      (NFP.monitor_loop s eqs).count NFP.Act.closeAll ≤ 1) ∧
    (∀ eqs : List (Option ℚ),
      (∃ e ∈ eqs, NFP.check_profit_exit s e = true) →
      (NFP.monitor_loop s eqs).count NFP.Act.closeAll = 1) ∧
    (∀ (ps : List NFP.Position) (t : Tick),
      (NFP.close_all_positions ps t).length = ps.length ∧
      ∀ p ∈ ps, NFP.close_request p t ∈ NFP.close_all_positions ps t ∧
        (NFP.close_request p t).action = TradeAction.deal ∧
        (NFP.close_request p t).order_type =
          (if p.ptype = PosSide.buy then OrderKind.sell
           else OrderKind.buy) ∧
        (NFP.close_request p t).price =
          (if p.ptype = PosSide.buy then t.bid else t.ask)) := by
  refine ⟨?_, ?_, ?_, rfl, ?_, NFP.monitor_loop_count_le s,
    NFP.monitor_loop_count_eq s, ?_⟩
  · intro b
    cases b <;> rfl
  · intro b hb
    cases b
    · rfl
    · simp [NFP.tick_acts] at hb
  · intro e
    simp [NFP.check_profit_exit]
  · intro e rest he
    simp [NFP.monitor_loop, he, NFP.tick_acts]
  · intro ps t
    refine ⟨by simp [NFP.close_all_positions], ?_⟩
    intro p hp
    exact ⟨List.mem_map.mpr ⟨p, hp, rfl⟩, rfl, rfl, rfl⟩

/-- C8 witness: starting equity 5000, observed equity 5800 triggers the
one-shot exit and stops the loop. -/
theorem C8_profit_exit_witness :
    NFP.monitor_loop 5000 [some 5800, some 5900] =
      [NFP.Act.checkProfit, NFP.Act.closeAll, NFP.Act.deletePending] :=
  (C8_profit_exit 5000).2.2.2.2.1 (some 5800) [some 5900]
    (by norm_num [NFP.check_profit_exit, NFP.PROFIT_TARGET_USD])

/-- `get_initial_risk` never touches the breakeven done-set. -/
theorem TM.get_initial_risk_be_done (st : TM.ManagerState) (pos : TM.Position) :
    (TM.get_initial_risk st pos).1.breakeven_done = st.breakeven_done := by
  unfold TM.get_initial_risk
  cases st.position_risk pos.ticket
  · dsimp only
    split <;> rfl
  · rfl

/-- `get_initial_risk` never touches the partial-close ledger. -/
theorem TM.get_initial_risk_pcd (st : TM.ManagerState) (pos : TM.Position) :
    (TM.get_initial_risk st pos).1.partial_closes_done =
      st.partial_closes_done := by
  unfold TM.get_initial_risk
  cases st.position_risk pos.ticket
  · dsimp only
    split <;> rfl
  · rfl

/-- `calculate_current_rr` never touches the breakeven done-set. -/
theorem TM.calculate_current_rr_be_done (st : TM.ManagerState)
    (pos : TM.Position) (tick : Option Tick) :
    (TM.calculate_current_rr st pos tick).1.breakeven_done =
      st.breakeven_done := by
  unfold TM.calculate_current_rr
  cases TM.get_current_price tick pos.ptype
  · rfl
  · dsimp only
    split <;> exact TM.get_initial_risk_be_done st pos

/-- `calculate_current_rr` never touches the partial-close ledger. -/
theorem TM.calculate_current_rr_pcd (st : TM.ManagerState)
    (pos : TM.Position) (tick : Option Tick) :
    (TM.calculate_current_rr st pos tick).1.partial_closes_done =
      st.partial_closes_done := by
  unfold TM.calculate_current_rr
  cases TM.get_current_price tick pos.ptype
  · rfl
  · dsimp only
    split <;> exact TM.get_initial_risk_pcd st pos

/-- With no cache entry and no stop set, `get_initial_risk` reports risk
0 and leaves the state untouched (the capture is re-attempted later). -/
theorem TM.get_initial_risk_zero_sl (st : TM.ManagerState)
    (pos : TM.Position) (hn : st.position_risk pos.ticket = none)
    (hs : pos.sl = 0) : TM.get_initial_risk st pos = (st, 0) := by
  unfold TM.get_initial_risk
  rw [hn]
  simp [hs]

/-- With no cache entry and no stop set, the current RR is 0 and the
state is untouched. -/
theorem TM.calculate_rr_zero (st : TM.ManagerState) (pos : TM.Position)
    (tick : Option Tick) (hn : st.position_risk pos.ticket = none)
    (hs : pos.sl = 0) : TM.calculate_current_rr st pos tick = (st, 0) := by
  unfold TM.calculate_current_rr
  cases TM.get_current_price tick pos.ptype
  · rfl
  · simp [TM.get_initial_risk_zero_sl st pos hn hs]

/-- With RR 0 (state untouched) and a positive breakeven RR target, the
breakeven rule does nothing at all. -/
theorem TM.manage_breakeven_rr_zero (cfg : TM.TradeConfig) (ia : Bool)
    (st : TM.ManagerState) (pos : TM.Position) (tick : Option Tick)
    (mres : Option OrderResult)
    (hrr : TM.calculate_current_rr st pos tick = (st, 0))
    (hbe : 0 < cfg.breakeven_rr) :
    TM.manage_breakeven cfg ia st pos tick mres = ⟨st, none, false⟩ := by
  simp [TM.manage_breakeven, hrr, not_le.mpr hbe]

/-- When no milestone is reached, the milestone loop does nothing. -/
theorem TM.pc_loop_not_reached (rr : ℚ) (done : List ℚ) (ok : ℚ → Bool) :
    ∀ targets : List (ℚ × ℚ), (∀ p ∈ targets, ¬((p : ℚ × ℚ).1 ≤ rr)) →
      TM.pc_loop rr done ok targets = ⟨done, [], false⟩ := by
  intro targets
  induction targets with
  | nil => intro _; rfl
  | cons t rest ih =>
    intro h
    have ht := h t (List.mem_cons_self t rest)
    have hrest := ih (fun p hp => h p (List.mem_cons_of_mem t hp))
    by_cases hm : t.1 ∈ done <;> simp [TM.pc_loop, hm, ht, hrest]

/-- With RR 0 (state untouched) and positive milestone RRs, the
partial-close rule submits nothing and only ensures the ledger entry. -/
theorem TM.manage_partial_close_rr_zero (cfg : TM.TradeConfig)
    (st : TM.ManagerState) (pos : TM.Position) (tick : Option Tick)
    (close_ok : ℚ → Bool)
    (hrr : TM.calculate_current_rr st pos tick = (st, 0))
    (hpos : ∀ p ∈ cfg.partial_close_targets, 0 < (p : ℚ × ℚ).1) :
    (TM.manage_partial_close cfg st pos tick close_ok).submitted = [] ∧
    (TM.manage_partial_close cfg st pos tick close_ok).st.position_risk =
      st.position_risk ∧
    (TM.manage_partial_close cfg st pos tick close_ok).st.breakeven_done =
      st.breakeven_done := by
  have hnr : ∀ p ∈ cfg.partial_close_targets, ¬((p : ℚ × ℚ).1 ≤ (0 : ℚ)) :=
    fun p hp => not_le.mpr (hpos p hp)
  unfold TM.manage_partial_close
  split
  · exact ⟨rfl, rfl, rfl⟩
  · simp [hrr, TM.pc_loop_not_reached 0 _ close_ok _ hnr]

/-- C9.  Risk anchoring and RR computation: the first observation of a
ticket with a nonzero stop records `initial_risk = |open - sl|` under the
ticket; a cached risk is returned unchanged forever after, whatever the
stop now is; a ticket observed with no stop gets risk 0 (after a logged
warning), RR 0, and the rules do not act; current RR is the
direction-signed favorable distance over the initial risk, and the
concrete buy at 1.1000 with stop 1.0950 and current price 1.1150 has
RR exactly 3. -/
theorem C9_risk_anchoring (st : TM.ManagerState) (pos : TM.Position) :
    (∀ r, st.position_risk pos.ticket = some r →
      TM.get_initial_risk st pos = (st, r)) ∧
    (st.position_risk pos.ticket = none → pos.sl ≠ 0 →
      (TM.get_initial_risk st pos).2 = |pos.price_open - pos.sl| ∧
      (TM.get_initial_risk st pos).1.position_risk pos.ticket =
        some |pos.price_open - pos.sl|) ∧
    (st.position_risk pos.ticket = none → pos.sl = 0 →
      (TM.get_initial_risk st pos).2 = 0 ∧
      (∀ tick, (TM.calculate_current_rr st pos tick).2 = 0) ∧
      (∀ (cfg : TM.TradeConfig) (ia : Bool) (tick : Option Tick)
         (mres : Option OrderResult), 0 < cfg.breakeven_rr →
        (TM.manage_breakeven cfg ia st pos tick mres).submitted = none) ∧
      (∀ (cfg : TM.TradeConfig) (tick : Option Tick) (close_ok : ℚ → Bool),
        (∀ p ∈ cfg.partial_close_targets, 0 < (p : ℚ × ℚ).1) →
        (TM.manage_partial_close cfg st pos tick close_ok).submitted = [])) ∧
    (∀ r, st.position_risk pos.ticket = some r → r ≠ 0 → ∀ t : Tick,
      (TM.calculate_current_rr st pos (some t)).2 =
        (match pos.ptype with
         | PosSide.buy => t.bid - pos.price_open
         | PosSide.sell => pos.price_open - t.ask) / r) ∧
    (TM.calculate_current_rr TM.initState
        { ticket := 7, symbol := "EURUSD", ptype := PosSide.buy,
          volume := 1, price_open := 11/10, sl := 1095/1000, tp := 0,
          profit := 0, magic := 0 }
        (some { bid := 1115/1000, ask := 1116/1000 })).2 = 3 := by
  refine ⟨?_, ?_, ?_, ?_, ?_⟩
  · intro r hr
    unfold TM.get_initial_risk
    rw [hr]
  · intro hn hs
    unfold TM.get_initial_risk
    rw [hn]
    simp only [hs, if_neg hs]
    constructor
    · cases hside : pos.ptype <;>
        simp [hside, abs_sub_comm]
    · cases hside : pos.ptype <;>
        simp [hside, abs_sub_comm]
  · intro hn hs
    refine ⟨?_, ?_, ?_, ?_⟩
    · rw [TM.get_initial_risk_zero_sl st pos hn hs]
    · intro tick
      rw [TM.calculate_rr_zero st pos tick hn hs]
    · intro cfg ia tick mres hbe
      rw [TM.manage_breakeven_rr_zero cfg ia st pos tick mres
        (TM.calculate_rr_zero st pos tick hn hs) hbe]
    · intro cfg tick close_ok hpos
      exact (TM.manage_partial_close_rr_zero cfg st pos tick close_ok
        (TM.calculate_rr_zero st pos tick hn hs) hpos).1
  · intro r hr hne t
    unfold TM.calculate_current_rr TM.get_current_price
    cases hside : pos.ptype <;>
      · unfold TM.get_initial_risk
        rw [hr]
        simp [hne]
  · norm_num [TM.calculate_current_rr, TM.get_current_price,
      TM.get_initial_risk, TM.initState, abs_of_pos]

/-- C9 witness: the RR 3 example discharged through the theorem at the
startup state. -/
theorem C9_risk_anchoring_witness :
    (TM.calculate_current_rr TM.initState
        { ticket := 7, symbol := "EURUSD", ptype := PosSide.buy,
          volume := 1, price_open := 11/10, sl := 1095/1000, tp := 0,
          profit := 0, magic := 0 }
        (some { bid := 1115/1000, ask := 1116/1000 })).2 = 3 :=
  (C9_risk_anchoring TM.initState
    { ticket := 7, symbol := "EURUSD", ptype := PosSide.buy,
      volume := 1, price_open := 11/10, sl := 1095/1000, tp := 0,
      profit := 0, magic := 0 }).2.2.2.2


/-- A cached initial risk is returned as-is, state untouched. -/
theorem TM.get_initial_risk_cached (st : TM.ManagerState)
    (pos : TM.Position) (r : ℚ) (h : st.position_risk pos.ticket = some r) :
    TM.get_initial_risk st pos = (st, r) := by
  unfold TM.get_initial_risk
  rw [h]

/-- A nonzero current RR for a position with no stop set can only come
from a nonzero cached initial risk. -/
theorem TM.rr_nonzero_cache (st : TM.ManagerState) (pos : TM.Position)
    (tick : Option Tick) (hs : pos.sl = 0)
    (h : (TM.calculate_current_rr st pos tick).2 ≠ 0) :
    ∃ r, st.position_risk pos.ticket = some r ∧ r ≠ 0 := by
  cases hr : st.position_risk pos.ticket with
  | none =>
    exact absurd (by rw [TM.calculate_rr_zero st pos tick hr hs]) h
  | some r =>
    refine ⟨r, rfl, fun hr0 => h ?_⟩
    subst hr0
    unfold TM.calculate_current_rr
    cases TM.get_current_price tick pos.ptype
    · rfl
    · simp [TM.get_initial_risk_cached st pos 0 hr]

/-- When the breakeven rule submits a stop modification, the current RR
had reached the configured target and the submitted stop is the open
price plus (buy) or minus (sell) the padding converted to price. -/
theorem TM.manage_breakeven_submitted_char (cfg : TM.TradeConfig)
    (ia : Bool) (st : TM.ManagerState) (pos : TM.Position)
    (tick : Option Tick) (mres : Option OrderResult) (s : ℚ)
    (h : (TM.manage_breakeven cfg ia st pos tick mres).submitted = some s) :
    cfg.breakeven_rr ≤ (TM.calculate_current_rr st pos tick).2 ∧
    s = (match pos.ptype with
         | PosSide.buy => pos.price_open +
             TM.pips_to_price ia pos.symbol cfg.breakeven_padding_pips
         | PosSide.sell => pos.price_open -
             TM.pips_to_price ia pos.symbol cfg.breakeven_padding_pips) := by
  obtain ⟨tk, sym, side, vol, op, psl, ptp, ppr, mg⟩ := pos
  cases side <;>
    · simp only [TM.manage_breakeven] at h ⊢
      split_ifs at h <;> simp_all

/-- A successful breakeven pass marks the ticket done and had a done
modification result. -/
theorem TM.manage_breakeven_fired_char (cfg : TM.TradeConfig) (ia : Bool)
    (st : TM.ManagerState) (pos : TM.Position) (tick : Option Tick)
    (mres : Option OrderResult)
    (h : (TM.manage_breakeven cfg ia st pos tick mres).fired = true) :
    (TM.manage_breakeven cfg ia st pos tick mres).st.breakeven_done
      pos.ticket = true ∧
    TM.modify_sl_ok mres = true := by
  obtain ⟨tk, sym, side, vol, op, psl, ptp, ppr, mg⟩ := pos
  cases side <;>
    · simp only [TM.manage_breakeven] at h ⊢
      split_ifs at h ⊢
      all_goals simp_all

/-- A ticket already in the done-set is skipped outright. -/
theorem TM.manage_breakeven_skip_done (cfg : TM.TradeConfig) (ia : Bool)
    (st : TM.ManagerState) (pos : TM.Position) (tick : Option Tick)
    (mres : Option OrderResult) (h : st.breakeven_done pos.ticket = true) :
    TM.manage_breakeven cfg ia st pos tick mres = ⟨st, none, false⟩ := by
  obtain ⟨tk, sym, side, vol, op, psl, ptp, ppr, mg⟩ := pos
  cases side <;>
    · simp only [TM.manage_breakeven]
      split_ifs <;> simp_all

/-- Done-set membership survives a breakeven pass. -/
theorem TM.manage_breakeven_done_mono (cfg : TM.TradeConfig) (ia : Bool)
    (st : TM.ManagerState) (pos : TM.Position) (tick : Option Tick)
    (mres : Option OrderResult) (t : ℕ) (h : st.breakeven_done t = true) :
    (TM.manage_breakeven cfg ia st pos tick mres).st.breakeven_done t =
      true := by
  have hc := congrFun (TM.calculate_current_rr_be_done st pos tick) t
  simp only [TM.manage_breakeven]
  repeat' split
  all_goals simp_all

/-- Once a ticket is in the done-set, a run of passes observing that
ticket never fires again. -/
theorem TM.run_breakeven_zero (cfg : TM.TradeConfig) (ia : Bool) (tkt : ℕ) :
    ∀ (obs : List (TM.Position × Option Tick × Option OrderResult))
      (st : TM.ManagerState), (∀ o ∈ obs, o.1.ticket = tkt) →
      st.breakeven_done tkt = true →
      (TM.run_breakeven cfg ia st obs).2 = 0 := by
  intro obs
  induction obs with
  | nil => intro st _ _; rfl
  | cons o rest ih =>
    intro st hall hdone
    obtain ⟨pos, tick, res⟩ := o
    have ht : pos.ticket = tkt := hall _ (List.mem_cons_self _ _)
    have hskip := TM.manage_breakeven_skip_done cfg ia st pos tick res
      (ht ▸ hdone)
    simp only [TM.run_breakeven, hskip]
    simpa using ih st (fun o ho => hall o (List.mem_cons_of_mem _ ho)) hdone

/-- A breakeven rule fires at most once per ticket over a whole run of
passes observing that ticket. -/
theorem TM.run_breakeven_le_one (cfg : TM.TradeConfig) (ia : Bool) (tkt : ℕ) :
    ∀ (obs : List (TM.Position × Option Tick × Option OrderResult))
      (st : TM.ManagerState), (∀ o ∈ obs, o.1.ticket = tkt) →
      (TM.run_breakeven cfg ia st obs).2 ≤ 1 := by
  intro obs
  induction obs with
  | nil => intro st _; simp [TM.run_breakeven]
  | cons o rest ih =>
    intro st hall
    obtain ⟨pos, tick, res⟩ := o
    have ht : pos.ticket = tkt := hall _ (List.mem_cons_self _ _)
    have htail : ∀ o ∈ rest, o.1.ticket = tkt :=
      fun o ho => hall o (List.mem_cons_of_mem _ ho)
    by_cases hf : (TM.manage_breakeven cfg ia st pos tick res).fired = true
    · have hd := (TM.manage_breakeven_fired_char cfg ia st pos tick res hf).1
      have hz := TM.run_breakeven_zero cfg ia tkt rest
        (TM.manage_breakeven cfg ia st pos tick res).st htail (ht ▸ hd)
      simp [TM.run_breakeven, hf, hz]
    · simp only [TM.run_breakeven, Bool.not_eq_true] at hf ⊢
      rw [hf]
      simpa using ih _ htail

/-- C4.  The position risk manager's breakeven rule: a successful stop
modification happens at most once per ticket over a whole run (the
ticket enters the done-set and is skipped thereafter); a submitted
modification implies the current RR reached `breakeven_rr` and carries
stop = open price plus (buy) or minus (sell) the padding pips converted
to price; and no modification is submitted when the existing stop is
already at or past that target (buy: existing at or above; sell:
existing nonzero and at or below). -/
theorem C4_breakeven_rule (cfg : TM.TradeConfig) (ia : Bool)
    (st : TM.ManagerState) (pos : TM.Position) (tick : Option Tick)
    (mres : Option OrderResult) :
    (∀ s, (TM.manage_breakeven cfg ia st pos tick mres).submitted = some s →
      cfg.breakeven_rr ≤ (TM.calculate_current_rr st pos tick).2 ∧
      s = (match pos.ptype with
           | PosSide.buy => pos.price_open +
               TM.pips_to_price ia pos.symbol cfg.breakeven_padding_pips
           | PosSide.sell => pos.price_open -
               TM.pips_to_price ia pos.symbol cfg.breakeven_padding_pips)) ∧
    (pos.ptype = PosSide.buy →
      pos.price_open +
          TM.pips_to_price ia pos.symbol cfg.breakeven_padding_pips ≤
        pos.sl →
      (TM.manage_breakeven cfg ia st pos tick mres).submitted = none) ∧
    (pos.ptype = PosSide.sell → pos.sl ≠ 0 →
      pos.sl ≤ pos.price_open -
          TM.pips_to_price ia pos.symbol cfg.breakeven_padding_pips →
      (TM.manage_breakeven cfg ia st pos tick mres).submitted = none) ∧
    (st.breakeven_done pos.ticket = true →
      TM.manage_breakeven cfg ia st pos tick mres = ⟨st, none, false⟩) ∧
    ((TM.manage_breakeven cfg ia st pos tick mres).fired = true →
      (TM.manage_breakeven cfg ia st pos tick mres).st.breakeven_done
          pos.ticket = true ∧
      TM.modify_sl_ok mres = true) ∧
    (∀ (tkt : ℕ) (obs : List (TM.Position × Option Tick × Option OrderResult)),
      (∀ o ∈ obs, o.1.ticket = tkt) →
      (TM.run_breakeven cfg ia st obs).2 ≤ 1) := by
  refine ⟨TM.manage_breakeven_submitted_char cfg ia st pos tick mres, ?_, ?_,
    TM.manage_breakeven_skip_done cfg ia st pos tick mres,
    TM.manage_breakeven_fired_char cfg ia st pos tick mres,
    fun tkt obs hall => TM.run_breakeven_le_one cfg ia tkt obs st hall⟩
  · intro hb hsk
    obtain ⟨tk, sym, side, vol, op, psl, ptp, ppr, mg⟩ := pos
    cases side
    · simp only [TM.manage_breakeven]
      split_ifs
      all_goals simp_all
    · simp at hb
  · intro hs hne hsk
    obtain ⟨tk, sym, side, vol, op, psl, ptp, ppr, mg⟩ := pos
    cases side
    · simp at hs
    · simp only [TM.manage_breakeven]
      split_ifs
      all_goals simp_all

/-- C4 witness: a ticket already in the done-set is skipped. -/
theorem C4_breakeven_rule_witness :
    TM.manage_breakeven TM.defaultConfig true
        { position_risk := fun _ => none,
          breakeven_done := fun t => decide (t = 1),
          partial_closes_done := fun _ => none }
        { ticket := 1, symbol := "XAUUSD.m", ptype := PosSide.buy,
          volume := 1, price_open := 2000, sl := 1999, tp := 0,
          profit := 0, magic := 0 }
        none none =
      ⟨{ position_risk := fun _ => none,
         breakeven_done := fun t => decide (t = 1),
         partial_closes_done := fun _ => none }, none, false⟩ :=
  (C4_breakeven_rule TM.defaultConfig true
      { position_risk := fun _ => none,
        breakeven_done := fun t => decide (t = 1),
        partial_closes_done := fun _ => none }
      { ticket := 1, symbol := "XAUUSD.m", ptype := PosSide.buy,
        volume := 1, price_open := 2000, sl := 1999, tp := 0,
        profit := 0, magic := 0 }
      none none).2.2.2.1 (by simp)

/-- First observation with a nonzero stop records `|open - sl|`. -/
theorem TM.get_initial_risk_record (st : TM.ManagerState)
    (pos : TM.Position) (hn : st.position_risk pos.ticket = none)
    (hs : pos.sl ≠ 0) :
    (TM.get_initial_risk st pos).2 = |pos.price_open - pos.sl| ∧
    (TM.get_initial_risk st pos).1.position_risk pos.ticket =
      some |pos.price_open - pos.sl| := by
  unfold TM.get_initial_risk
  rw [hn]
  simp only [if_neg hs]
  constructor
  · cases hside : pos.ptype <;> simp [hside, abs_sub_comm]
  · cases hside : pos.ptype <;> simp [hside, abs_sub_comm]

/-- C10.  A position whose stop is 0 when the manager first sees it gets
no initial-risk cache entry (the whole pass leaves the risk cache
untouched, so the capture is re-attempted later, and a stop set on a
later pass is then adopted as the initial risk); with positive
`breakeven_rr` and positive milestone RRs such a pass submits neither a
breakeven modification nor any partial close; and the sell-side
zero-stop eligibility branch of the breakeven rule is reachable only for
a ticket whose risk was cached earlier, i.e. whose stop existed at first
successful observation and was cleared afterwards. -/
theorem C10_zero_stop_skip (cfg : TM.TradeConfig) (ia : Bool)
    (st : TM.ManagerState) (pos : TM.Position) (tick : Option Tick)
    (mres : Option OrderResult) (close_ok : ℚ → Bool)
    (hs : pos.sl = 0) (hn : st.position_risk pos.ticket = none)
    (hbe : 0 < cfg.breakeven_rr)
    (hpc : ∀ p ∈ cfg.partial_close_targets, 0 < (p : ℚ × ℚ).1) :
    (TM.manage_position cfg ia st pos tick mres close_ok).st.position_risk =
      st.position_risk ∧
    (TM.manage_position cfg ia st pos tick mres close_ok).be_submitted =
      none ∧
    (TM.manage_position cfg ia st pos tick mres close_ok).pc_submitted =
      [] ∧
    (∀ pos2 : TM.Position, pos2.ticket = pos.ticket → pos2.sl ≠ 0 →
      (TM.get_initial_risk
          (TM.manage_position cfg ia st pos tick mres close_ok).st pos2).2 =
        |pos2.price_open - pos2.sl| ∧
      (TM.get_initial_risk
          (TM.manage_position cfg ia st pos tick mres close_ok).st
          pos2).1.position_risk pos2.ticket =
        some |pos2.price_open - pos2.sl|) ∧
    (∀ (st3 : TM.ManagerState) (pos3 : TM.Position) (tick3 : Option Tick)
       (mres3 : Option OrderResult), pos3.ptype = PosSide.sell →
      pos3.sl = 0 →
      (TM.manage_breakeven cfg ia st3 pos3 tick3 mres3).submitted ≠ none →
      ∃ r, st3.position_risk pos3.ticket = some r ∧ r ≠ 0) := by
  have hrr := TM.calculate_rr_zero st pos tick hn hs
  have hst0 := TM.get_initial_risk_zero_sl st pos hn hs
  have hbe0 := TM.manage_breakeven_rr_zero cfg ia st pos tick mres hrr hbe
  have hmpc := TM.manage_partial_close_rr_zero cfg st pos tick close_ok
    hrr hpc
  have hmp : TM.manage_position cfg ia st pos tick mres close_ok =
      ⟨(TM.manage_partial_close cfg st pos tick close_ok).st, none,
        (TM.manage_partial_close cfg st pos tick close_ok).submitted⟩ := by
    unfold TM.manage_position
    rw [hst0]
    simp only [hbe0]
  refine ⟨?_, ?_, ?_, ?_, ?_⟩
  · rw [hmp]
    exact hmpc.2.1
  · rw [hmp]
  · rw [hmp]
    exact hmpc.1
  · intro pos2 ht hs2
    have hn2 : (TM.manage_position cfg ia st pos tick mres
        close_ok).st.position_risk pos2.ticket = none := by
      rw [hmp]
      rw [hmpc.2.1, ht, hn]
    exact TM.get_initial_risk_record _ pos2 hn2 hs2
  · intro st3 pos3 tick3 mres3 _ hs3 hsub
    obtain ⟨s, hsome⟩ := Option.ne_none_iff_exists'.mp hsub
    have hchar := TM.manage_breakeven_submitted_char cfg ia st3 pos3 tick3
      mres3 s hsome
    have hrrne : (TM.calculate_current_rr st3 pos3 tick3).2 ≠ 0 := by
      intro h0
      rw [h0] at hchar
      exact absurd hchar.1 (not_le.mpr hbe)
    exact TM.rr_nonzero_cache st3 pos3 tick3 hs3 hrrne

/-- C10 witness: a fresh zero-stop position under the default
configuration gets neither rule applied. -/
theorem C10_zero_stop_skip_witness :
    (TM.manage_position TM.defaultConfig true TM.initState
        { ticket := 5, symbol := "XAUUSD.m", ptype := PosSide.sell,
          volume := 1, price_open := 2000, sl := 0, tp := 0,
          profit := 0, magic := 0 }
        (some { bid := 1990, ask := 1991 }) none
        (fun _ => true)).be_submitted = none ∧
    (TM.manage_position TM.defaultConfig true TM.initState
        { ticket := 5, symbol := "XAUUSD.m", ptype := PosSide.sell,
          volume := 1, price_open := 2000, sl := 0, tp := 0,
          profit := 0, magic := 0 }
        (some { bid := 1990, ask := 1991 }) none
        (fun _ => true)).pc_submitted = [] := by
  have h := C10_zero_stop_skip TM.defaultConfig true TM.initState
    { ticket := 5, symbol := "XAUUSD.m", ptype := PosSide.sell,
      volume := 1, price_open := 2000, sl := 0, tp := 0,
      profit := 0, magic := 0 }
    (some { bid := 1990, ask := 1991 }) none (fun _ => true)
    rfl rfl (by norm_num [TM.defaultConfig])
    (by
      intro p hp
      simp [TM.defaultConfig, TM.default_targets] at hp
      rcases hp with hp | hp | hp <;> rw [hp] <;> norm_num)
  exact ⟨h.2.1, h.2.2.1⟩

/-- Every close submission of one milestone-loop pass is for a reached,
not-yet-recorded milestone from the configured table. -/
theorem TM.pc_loop_submitted_char (rr : ℚ) (done : List ℚ) (ok : ℚ → Bool) :
    ∀ (targets : List (ℚ × ℚ)) (p : ℚ × ℚ),
      p ∈ (TM.pc_loop rr done ok targets).submitted →
      p.1 ∉ done ∧ p.1 ≤ rr ∧ p ∈ targets := by
  intro targets
  induction targets with
  | nil =>
    intro p hp
    simp [TM.pc_loop] at hp
  | cons t rest ih =>
    intro p hp
    by_cases hm : t.1 ∈ done
    · simp only [TM.pc_loop, if_pos hm] at hp
      obtain ⟨h1, h2, h3⟩ := ih p hp
      exact ⟨h1, h2, List.mem_cons_of_mem _ h3⟩
    · by_cases hr : t.1 ≤ rr
      · by_cases hok : ok t.1 = true
        · simp only [TM.pc_loop, if_neg hm, if_pos hr, if_pos hok,
            List.mem_singleton] at hp
          subst hp
          exact ⟨hm, hr, List.mem_cons_self _ _⟩
        · simp only [TM.pc_loop, if_neg hm, if_pos hr, if_neg hok,
            List.mem_cons] at hp
          rcases hp with rfl | hp
          · exact ⟨hm, hr, List.mem_cons_self _ _⟩
          · obtain ⟨h1, h2, h3⟩ := ih p hp
            exact ⟨h1, h2, List.mem_cons_of_mem _ h3⟩
      · simp only [TM.pc_loop, if_neg hm, if_neg hr] at hp
        obtain ⟨h1, h2, h3⟩ := ih p hp
        exact ⟨h1, h2, List.mem_cons_of_mem _ h3⟩

/-- A recorded head milestone is skipped: the loop on the remaining
milestones decides the pass. -/
theorem TM.pc_loop_skip_head (rr : ℚ) (done : List ℚ) (ok : ℚ → Bool)
    (trr pct : ℚ) (rest : List (ℚ × ℚ)) (h : trr ∈ done) :
    TM.pc_loop rr done ok ((trr, pct) :: rest) =
      TM.pc_loop rr done ok rest := by
  simp [TM.pc_loop, h]

/-- One pass records at most one new milestone and keeps all old ones. -/
theorem TM.pc_loop_done_growth (rr : ℚ) (done : List ℚ) (ok : ℚ → Bool) :
    ∀ targets : List (ℚ × ℚ),
      (TM.pc_loop rr done ok targets).done.length ≤ done.length + 1 ∧
      ∀ x ∈ done, x ∈ (TM.pc_loop rr done ok targets).done := by
  intro targets
  induction targets with
  | nil => exact ⟨by simp [TM.pc_loop], fun x hx => by simpa [TM.pc_loop] using hx⟩
  | cons t rest ih =>
    by_cases hm : t.1 ∈ done
    · simpa only [TM.pc_loop, if_pos hm] using ih
    · by_cases hr : t.1 ≤ rr
      · by_cases hok : ok t.1 = true
        · constructor
          · simp [TM.pc_loop, hm, hr, hok]
          · intro x hx
            simp only [TM.pc_loop, if_neg hm, if_pos hr, if_pos hok]
            exact List.mem_append_left _ hx
        · simpa only [TM.pc_loop, if_neg hm, if_pos hr, if_neg hok] using ih
      · simpa only [TM.pc_loop, if_neg hm, if_neg hr] using ih

/-- Every submission before the last one in a pass failed at the broker:
the pass stops at its first successful close. -/
theorem TM.pc_loop_dropLast_failed (rr : ℚ) (done : List ℚ) (ok : ℚ → Bool) :
    ∀ (targets : List (ℚ × ℚ)) (p : ℚ × ℚ),
      p ∈ (TM.pc_loop rr done ok targets).submitted.dropLast →
      ok p.1 = false := by
  intro targets
  induction targets with
  | nil =>
    intro p hp
    simp [TM.pc_loop] at hp
  | cons t rest ih =>
    intro p hp
    by_cases hm : t.1 ∈ done
    · rw [show TM.pc_loop rr done ok (t :: rest) =
        TM.pc_loop rr done ok rest by simp [TM.pc_loop, hm]] at hp
      exact ih p hp
    · by_cases hr : t.1 ≤ rr
      · by_cases hok : ok t.1 = true
        · simp only [TM.pc_loop, if_neg hm, if_pos hr, if_pos hok,
            List.dropLast_single] at hp
          simp at hp
        · simp only [TM.pc_loop, if_neg hm, if_pos hr, if_neg hok] at hp
          rcases hsub : (TM.pc_loop rr done ok rest).submitted with _ | ⟨q, qs⟩
          · rw [hsub] at hp
            simp at hp
          · rw [hsub] at hp
            rw [List.dropLast_cons₂] at hp
            rcases List.mem_cons.mp hp with rfl | hp2
            · simpa using hok
            · apply ih
              rw [hsub]
              exact hp2
      · simp only [TM.pc_loop, if_neg hm, if_neg hr] at hp
        exact ih p hp

/-- A successful pass records exactly the milestone of its one
successful close at the end of the ledger. -/
theorem TM.pc_loop_fired_char (rr : ℚ) (done : List ℚ) (ok : ℚ → Bool) :
    ∀ targets : List (ℚ × ℚ),
      (TM.pc_loop rr done ok targets).fired = true →
      ∃ trr, ok trr = true ∧ trr ∉ done ∧ trr ≤ rr ∧
        (TM.pc_loop rr done ok targets).done = done ++ [trr] := by
  intro targets
  induction targets with
  | nil =>
    intro hf
    simp [TM.pc_loop] at hf
  | cons t rest ih =>
    intro hf
    by_cases hm : t.1 ∈ done
    · rw [show TM.pc_loop rr done ok (t :: rest) =
        TM.pc_loop rr done ok rest by simp [TM.pc_loop, hm]] at hf ⊢
      exact ih hf
    · by_cases hr : t.1 ≤ rr
      · by_cases hok : ok t.1 = true
        · refine ⟨t.1, hok, hm, hr, ?_⟩
          simp [TM.pc_loop, hm, hr, hok]
        · simp only [TM.pc_loop, if_neg hm, if_pos hr, if_neg hok] at hf ⊢
          exact ih hf
      · simp only [TM.pc_loop, if_neg hm, if_neg hr] at hf ⊢
        exact ih hf

/-- C5 counterexample.  One management pass can submit two partial
closes: with the default milestone table, a position at RR 6 whose RR 3
close is rejected by the broker (`close_ok` fails at 3 and succeeds at
6) gets closes submitted for both milestones in the same pass, so "at
most one partial close submitted per management pass" is false as
stated. -/
theorem C5_counterexample_two_submissions :
    (TM.manage_partial_close TM.defaultConfig TM.initState
        { ticket := 9, symbol := "EURUSD", ptype := PosSide.buy,
          volume := 1, price_open := 11/10, sl := 21/20, tp := 0,
          profit := 0, magic := 0 }
        (some { bid := 7/5, ask := 141/100 })
        (fun t => if t = 6 then true else false)).submitted =
      [(3, 30), (6, 30)] ∧
    2 ≤ (TM.manage_partial_close TM.defaultConfig TM.initState
        { ticket := 9, symbol := "EURUSD", ptype := PosSide.buy,
          volume := 1, price_open := 11/10, sl := 21/20, tp := 0,
          profit := 0, magic := 0 }
        (some { bid := 7/5, ask := 141/100 })
        (fun t => if t = 6 then true else false)).submitted.length := by
  have h : (TM.manage_partial_close TM.defaultConfig TM.initState
      { ticket := 9, symbol := "EURUSD", ptype := PosSide.buy,
        volume := 1, price_open := 11/10, sl := 21/20, tp := 0,
        profit := 0, magic := 0 }
      (some { bid := 7/5, ask := 141/100 })
      (fun t => if t = 6 then true else false)).submitted =
      [(3, 30), (6, 30)] := by
    norm_num [TM.manage_partial_close, TM.calculate_current_rr,
      TM.get_current_price, TM.get_initial_risk, TM.initState,
      TM.defaultConfig, TM.default_targets, TM.pc_loop, abs_of_pos]
  rw [h]
  norm_num

/-- C5 (amended).  Partial-close milestones: a milestone recorded in the
ticket's ledger is never re-submitted on a later pass while later
unrecorded milestones are still evaluated (a recorded head milestone is
skipped and the rest of the table decides the pass); every submission is
for a reached, unrecorded milestone of the configured table; at most one
milestone is recorded per pass, old records are kept, and a successful
pass records exactly the milestone of its one successful close; the pass
stops at its first successful close — but when a submission fails at the
broker the pass moves on to later milestones, so more than one close can
be submitted in a single pass (only the last submitted one can be the
successful one). -/
theorem C5_milestone_idempotence (cfg : TM.TradeConfig)
    (st : TM.ManagerState) (pos : TM.Position) (tick : Option Tick)
    (ok : ℚ → Bool) :
    (∀ done trr, st.partial_closes_done pos.ticket = some done →
      trr ∈ done → ∀ pct,
      (trr, pct) ∉ (TM.manage_partial_close cfg st pos tick ok).submitted) ∧
    (∀ p ∈ (TM.manage_partial_close cfg st pos tick ok).submitted,
      p ∈ cfg.partial_close_targets) ∧
    (∀ (rr : ℚ) (done : List ℚ) (ok2 : ℚ → Bool) (trr pct : ℚ)
       (rest : List (ℚ × ℚ)), trr ∈ done →
      TM.pc_loop rr done ok2 ((trr, pct) :: rest) =
        TM.pc_loop rr done ok2 rest) ∧
    (∀ (rr : ℚ) (done : List ℚ) (ok2 : ℚ → Bool)
       (targets : List (ℚ × ℚ)),
      (TM.pc_loop rr done ok2 targets).done.length ≤ done.length + 1 ∧
      ∀ x ∈ done, x ∈ (TM.pc_loop rr done ok2 targets).done) ∧
    (∀ (rr : ℚ) (done : List ℚ) (ok2 : ℚ → Bool)
       (targets : List (ℚ × ℚ)) (p : ℚ × ℚ),
      p ∈ (TM.pc_loop rr done ok2 targets).submitted.dropLast →
      ok2 p.1 = false) ∧
    (∀ (rr : ℚ) (done : List ℚ) (ok2 : ℚ → Bool)
       (targets : List (ℚ × ℚ)),
      (TM.pc_loop rr done ok2 targets).fired = true →
      ∃ trr, ok2 trr = true ∧ trr ∉ done ∧ trr ≤ rr ∧
        (TM.pc_loop rr done ok2 targets).done = done ++ [trr]) := by
  have hpcd := congrFun (TM.calculate_current_rr_pcd st pos tick) pos.ticket
  refine ⟨?_, ?_,
    fun rr done ok2 trr pct rest h =>
      TM.pc_loop_skip_head rr done ok2 trr pct rest h,
    fun rr done ok2 targets => TM.pc_loop_done_growth rr done ok2 targets,
    fun rr done ok2 targets p hp =>
      TM.pc_loop_dropLast_failed rr done ok2 targets p hp,
    fun rr done ok2 targets hf =>
      TM.pc_loop_fired_char rr done ok2 targets hf⟩
  · intro done trr hsome htrr pct hmem
    unfold TM.manage_partial_close at hmem
    by_cases hE : cfg.partial_close_enabled = false
    · rw [if_pos hE] at hmem
      simp at hmem
    · rw [if_neg hE] at hmem
      simp only [hpcd, hsome, Option.getD_some] at hmem
      exact (TM.pc_loop_submitted_char _ _ _ _ _ hmem).1 htrr
  · intro p hmem
    unfold TM.manage_partial_close at hmem
    by_cases hE : cfg.partial_close_enabled = false
    · rw [if_pos hE] at hmem
      simp at hmem
    · rw [if_neg hE] at hmem
      exact (TM.pc_loop_submitted_char _ _ _ _ _ hmem).2.2

/-- C6.  Partial-close volume: the submitted volume is the requested
percent of the current volume rounded to the nearest multiple of the
volume step (within half a step), then raised to at least the minimum
volume, then capped at the position's current volume — so it never
exceeds the remaining volume; with step 0.01 and minimum 0.01 a computed
volume of 0.0137 lots yields 0.01 lots. -/
theorem C6_partial_close_volume (v pct step mn : ℚ) (hstep : 0 < step) :
    TM.partial_close_volume v pct step mn ≤ v ∧
    TM.partial_close_volume v pct step mn =
      min (max ((pyRound (v * (pct / 100) / step) : ℚ) * step) mn) v ∧
    |v * (pct / 100) - (pyRound (v * (pct / 100) / step) : ℚ) * step| ≤
      step / 2 ∧
    TM.partial_close_volume (137/3000) 30 (1/100) (1/100) = 1/100 := by
  refine ⟨?_, ?_, ?_, ?_⟩
  · unfold TM.partial_close_volume
    dsimp only
    split_ifs with h
    · exact le_refl v
    · exact le_of_lt (lt_of_not_le h)
  · unfold TM.partial_close_volume
    dsimp only
    rcases le_total v (max ((pyRound (v * (pct / 100) / step) : ℚ) * step) mn)
      with h | h
    · rw [if_pos h, min_eq_right h]
    · by_cases he : v ≤ max ((pyRound (v * (pct / 100) / step) : ℚ) * step) mn
      · rw [if_pos he, min_eq_left h]
        exact le_antisymm he h
      · rw [if_neg he, min_eq_left h]
  · have hx : v * (pct / 100) / step * step = v * (pct / 100) :=
      div_mul_cancel₀ _ (ne_of_gt hstep)
    have h1 : v * (pct / 100) -
        (pyRound (v * (pct / 100) / step) : ℚ) * step =
        (v * (pct / 100) / step -
          (pyRound (v * (pct / 100) / step) : ℚ)) * step := by
      rw [sub_mul, hx]
    rw [h1, abs_mul, abs_of_pos hstep]
    have h2 := mul_le_mul_of_nonneg_right
      (pyRound_near (v * (pct / 100) / step)) (le_of_lt hstep)
    linarith [h2]
  · norm_num [TM.partial_close_volume, pyRound]

/-- C6 witness: 0.0137 lots with step and minimum 0.01 submits 0.01,
never more than the position's volume. -/
theorem C6_partial_close_volume_witness :
    TM.partial_close_volume (137/3000) 30 (1/100) (1/100) = 1/100 ∧
    TM.partial_close_volume (137/3000) 30 (1/100) (1/100) ≤ 137/3000 :=
  ⟨(C6_partial_close_volume (137/3000) 30 (1/100) (1/100)
      (by norm_num)).2.2.2,
   (C6_partial_close_volume (137/3000) 30 (1/100) (1/100)
      (by norm_num)).1⟩

/-- C7.  Daily limits: a daily loss of `max_daily_loss_percent` percent
of the start balance or worse (inclusive) stops the run without closing
any position (the pass is the run's last and `close_all_positions` is
not invoked); a configured positive daily profit target that the daily
PnL reaches closes every managed position and stops; a balance of 9,500
against a 10,000 start triggers the default 5% loss stop exactly at
-5.00%; and the close-all path submits one close per managed position. -/
theorem C7_daily_limits (cfg : TM.TradeConfig) (start bal : ℚ)
    (hs : 0 < start) (hml : 0 ≤ cfg.max_daily_loss_percent) :
    ((bal - start) / start * 100 ≤ -cfg.max_daily_loss_percent →
      TM.check_daily_limits cfg start (some bal) = ⟨false, false⟩ ∧
      ∀ rest : List (Option ℚ),
        TM.run_passes cfg start (some bal :: rest) = [⟨false, false⟩]) ∧
    (0 < cfg.daily_profit_target →
      cfg.daily_profit_target ≤ bal - start →
      TM.check_daily_limits cfg start (some bal) = ⟨false, true⟩) ∧
    TM.check_daily_limits TM.defaultConfig 10000 (some 9500) =
      ⟨false, false⟩ ∧
    (∀ (ps : List TM.Position) (ticks : String → Tick),
      (TM.close_all_positions cfg ps ticks).length =
        (TM.get_positions cfg ps).length ∧
      ∀ p ∈ TM.get_positions cfg ps,
        TM.close_request p (ticks p.symbol) ∈
          TM.close_all_positions cfg ps ticks) := by
  refine ⟨?_, ?_, ?_, ?_⟩
  · intro h
    have hcheck : TM.check_daily_limits cfg start (some bal) =
        ⟨false, false⟩ := by
      unfold TM.check_daily_limits
      dsimp only
      rw [if_pos h]
    refine ⟨hcheck, fun rest => ?_⟩
    unfold TM.run_passes
    rw [hcheck]
    simp
  · intro ht hp
    have hpnl : 0 < bal - start := lt_of_lt_of_le ht hp
    have hpct : 0 < (bal - start) / start * 100 := by positivity
    have hno : ¬((bal - start) / start * 100 ≤ -cfg.max_daily_loss_percent) :=
      not_le.mpr (lt_of_lt_of_le (by linarith) (le_of_eq rfl))
    unfold TM.check_daily_limits
    dsimp only
    rw [if_neg hno, if_pos ⟨ht, hp⟩]
  · unfold TM.check_daily_limits
    norm_num [TM.defaultConfig]
  · intro ps ticks
    refine ⟨by simp [TM.close_all_positions], ?_⟩
    intro p hp
    exact List.mem_map.mpr ⟨p, hp, rfl⟩

/-- C7 witness: the inclusive -5.00% stop at balance 9,500 from a 10,000
start, through the theorem. -/
theorem C7_daily_limits_witness :
    TM.check_daily_limits TM.defaultConfig 10000 (some 9500) =
      ⟨false, false⟩ ∧
    TM.run_passes TM.defaultConfig 10000 [some 9500, some 10000] =
      [⟨false, false⟩] := by
  have h := (C7_daily_limits TM.defaultConfig 10000 9500 (by norm_num)
    (by norm_num [TM.defaultConfig])).1
    (by norm_num [TM.defaultConfig])
  exact ⟨h.1, h.2 [some 10000]⟩
